import Mathlib

/-!
Verification of the pagination / response-normalization core of the
phone-number-manager repository.

The definitions below are a shallow embedding of:
  * `PhoneNumberAPI.fetch_all_available_numbers`
    (src/streamlit_app/utils/api_client.py, lines 13-218), including its
    404 fallback resolver, response normalizer and field extractor;
  * `_normalize_connections` (src/streamlit_app/utils/multi_org_config.py,
    lines 45-92) and the inline connection normalization of
    `get_connections_from_workspace` (src/utils.py, lines 174-206);
  * `save_to_csv` / `load_from_csv` (src/streamlit_app/utils/helpers.py,
    lines 55-96), modelled at the CSV-record level (the `csv` module's
    quoting/unquoting of a single record is taken as the identity).

JSON-decoded Python values are modelled by the `Json` type; Python
truthiness by `truthy`; `dict.get` by `jget`/`pyGet`; the `or` operator on
values by `pyOr`; `str(x)` by `pyStr` (the rendering of composite values
approximates Python's and no claim depends on it); `str.strip()` by
`pyStrip`.  Python strings that undergo `split` are modelled as `List Char`
with `splitFirst` (first occurrence), `firstPart` (`s.split(sep)[0]`),
`afterLast` (`s.split(sep)[-1]`) and `occurs` (`sep in s`).

The HTTP layer is modelled by feeding the loop an explicit finite list of
`Response`s, consumed one per GET request in order.  Running out of
responses models a transport failure (caught by the function's outer
`except requests.exceptions.RequestException` handler).  The loop itself,
`fetchLoop`, follows the source line by line; `fetch_all_available_numbers`
is the whole function: it returns the accumulated set in every case, since
the outer `except` clause catches `RequestException` (and hence also the
`HTTPError` raised by `response.raise_for_status()`, which is a subclass).
The internal `LoopExit` value records how the loop ended; it is not
observable by the caller.
-/

set_option maxRecDepth 20000

namespace PhoneMgr

/-- A JSON-decoded Python value.  Objects are association lists in key
order (Python dicts preserve insertion order). -/
inductive Json where
  | null
  | bool (b : Bool)
  | num (n : Int)
  | str (s : String)
  | arr (xs : List Json)
  | obj (fields : List (String × Json))

/-- Python truthiness of a JSON value. -/
def truthy : Json → Bool
  | .null => false
  | .bool b => b
  | .num n => n != 0
  | .str s => s != ""
  | .arr xs => !xs.isEmpty
  | .obj fs => !fs.isEmpty

/-- Lookup in an object's field list: `d[k]` / `k in d`. -/
def jget : List (String × Json) → String → Option Json
  | [], _ => none
  | (k, v) :: fs, key => if k = key then some v else jget fs key

/-- Python `d.get(k)` (default `None`). -/
def pyGet (fs : List (String × Json)) (k : String) : Json :=
  (jget fs k).getD .null

/-- Python `a or b` on values. -/
def pyOr (a b : Json) : Json :=
  if truthy a then a else b

mutual

/-- Python `str(x)`.  Exact for `None`, booleans, integers and strings;
the rendering of lists and dicts is an approximation (no claim depends on
the string form of composite values). -/
def pyStr : Json → String
  | .null => "None"
  | .bool true => "True"
  | .bool false => "False"
  | .num n => toString n
  | .str s => s
  | .arr xs => "[" ++ pyStrList xs ++ "]"
  | .obj fs => "\x7b" ++ pyStrFields fs ++ "\x7d"

def pyStrList : List Json → String
  | [] => ""
  | [x] => pyStr x
  | x :: y :: xs => pyStr x ++ ", " ++ pyStrList (y :: xs)

def pyStrFields : List (String × Json) → String
  | [] => ""
  | [(k, v)] => k ++ ": " ++ pyStr v
  | (k, v) :: f :: fs => k ++ ": " ++ pyStr v ++ ", " ++ pyStrFields (f :: fs)

end

/-- Whitespace characters stripped by Python `str.strip()` (the common
ASCII ones; the claims only exercise spaces). -/
def isSpace (c : Char) : Bool :=
  c = ' ' || c = '\t' || c = '\n' || c = '\r'

/-- `str.strip()` on a character list. -/
def stripList (l : List Char) : List Char :=
  ((l.dropWhile isSpace).reverse.dropWhile isSpace).reverse

/-- Python `s.strip()`. -/
def pyStrip (s : String) : String :=
  String.mk (stripList s.data)

/-- First occurrence of `sep` in `s`: `some (a, b)` with `s = a ++ sep ++ b`
and no earlier occurrence; `none` when `sep` does not occur (or is empty,
a case the source never exercises). -/
def splitFirst (sep : List Char) : List Char → Option (List Char × List Char)
  | [] => none
  | c :: t =>
    if sep ≠ [] ∧ sep.isPrefixOf (c :: t) then
      some ([], (c :: t).drop sep.length)
    else
      (splitFirst sep t).map (fun q => (c :: q.1, q.2))

/-- Python `sep in s`. -/
def occurs (sep s : List Char) : Bool :=
  (splitFirst sep s).isSome

/-- Python `s.split(sep)[0]`. -/
def firstPart (sep s : List Char) : List Char :=
  match splitFirst sep s with
  | none => s
  | some q => q.1

/-- Fuel-driven helper for `afterLast`: repeatedly steps past the first
remaining occurrence of `sep`.  Each step strictly shortens the string
(`splitFirst_post_length`), so fuel `s.length` is always sufficient. -/
def afterLastAux (sep : List Char) : Nat → List Char → List Char
  | 0, s => s
  | fuel + 1, s =>
    match splitFirst sep s with
    | none => s
    | some q => afterLastAux sep fuel q.2

/-- Python `s.split(sep)[-1]`: the text after the last occurrence of
`sep` under left-to-right non-overlapping scanning, or `s` itself when
`sep` does not occur. -/
def afterLast (sep s : List Char) : List Char :=
  afterLastAux sep s.length s

/-- The provider-scoped path segment tested at api_client.py line 79. -/
def provSeg : List Char := "/channels/v2v/providers/".toList

/-- The connections path segment tested at api_client.py line 89. -/
def connSeg : List Char := "/connections/".toList

/-- The fallback URL computed on a 404 (api_client.py lines 79-96):
`parts = url.split("/channels/v2v/providers/")`, `base_path = parts[0]`,
`conn_part = url.split("/connections/")[-1].split("/")[0]`, and
`endpoints_url = f"{base_path}/connections/{conn_part}/endpoints"`.
`none` corresponds to the branches that fall through to the `break` at
line 159 (pattern not matched, or empty `conn_part`). -/
def fallbackUrl (url : List Char) : Option (List Char) :=
  if occurs provSeg url then
    let basePath := firstPart provSeg url
    if occurs connSeg url then
      let connPart := firstPart "/".toList (afterLast connSeg url)
      if connPart ≠ [] then
        some (basePath ++ connSeg ++ connPart ++ "/endpoints".toList)
      else none
    else none
  else none

/-- The primary phone-numbers URL shape built by `build_api_url`
(multi_org_config.py lines 510-514) and documented at api_client.py lines
74-77:
`{base}/orgs/{o}/workspaces/{w}/channels/v2v/providers/{p}/connections/{c}/phone-numbers`. -/
def mkPrimaryUrl (base o w p c : List Char) : List Char :=
  base ++ "/orgs/".toList ++ o ++ "/workspaces/".toList ++ w
    ++ provSeg ++ p ++ connSeg ++ c ++ "/phone-numbers".toList

/-- `len(x)` where the source applies it to the raw value found under an
items key.  Exact for lists; the source would raise `TypeError` on
unsized values (a case no claim exercises). -/
def itemsLen : Json → Nat
  | .arr xs => xs.length
  | _ => 0

/-- Iterating a value as the page's item list.  Exact for lists; iteration
over non-list values is outside the shapes the claims exercise. -/
def asArr : Json → List Json
  | .arr xs => xs
  | _ => []

/-- `data.get("has_more", len(itemsV) == limit)`, with Python truthiness
applied to a present `has_more` value (the loop only ever tests the value
for truthiness). -/
def hasMoreOf (fs : List (String × Json)) (itemsV : Json) (limit : Nat) : Bool :=
  match jget fs "has_more" with
  | some v => truthy v
  | none => itemsLen itemsV == limit

/-- Response normalization of the primary pagination loop
(api_client.py lines 166-183).  `items` is read from key `items`
(default `[]`), `has_more` is computed from that value, and only then do
the `data` and `results` fallbacks run (each fires when the current items
value is falsy and the key is present).  The dead local `total` is
omitted. -/
def normalizePrimary (data : Json) (limit : Nat) : List Json × Bool :=
  match data with
  | .obj fs =>
    let items0 := (jget fs "items").getD (.arr [])
    let hasMore := hasMoreOf fs items0 limit
    let items1 :=
      if truthy items0 = false ∧ (jget fs "data").isSome then
        (jget fs "data").getD (.arr [])
      else items0
    let items2 :=
      if truthy items1 = false ∧ (jget fs "results").isSome then
        (jget fs "results").getD (.arr [])
      else items1
    (asArr items2, hasMore)
  | .arr xs => (xs, xs.length == limit)
  | _ => ([], false)

/-- Response normalization of the 404 fallback branch (api_client.py
lines 109-123): `items = data.get("items", data.get("data", []))` (no
`results` fallback, and `data` is used only when the `items` key is
absent), then `has_more = data.get("has_more", len(items) == limit)`. -/
def normalizeFallback (data : Json) (limit : Nat) : List Json × Bool :=
  match data with
  | .obj fs =>
    let items0 := (jget fs "items").getD ((jget fs "data").getD (.arr []))
    (asArr items0, hasMoreOf fs items0 limit)
  | .arr xs => (xs, xs.length == limit)
  | _ => ([], false)

/-- The phone-number field probe (api_client.py lines 190-196 and
130-136): `item.get("phone_number") or item.get("number") or
item.get("phone") or item.get("endpoint") or item.get("id")`. -/
def phoneFromFields (fs : List (String × Json)) : Json :=
  pyOr (pyGet fs "phone_number")
    (pyOr (pyGet fs "number")
      (pyOr (pyGet fs "phone")
        (pyOr (pyGet fs "endpoint") (pyGet fs "id"))))

/-- Taken from the spec's words (section 4.2), for comparison with the
source's or-chain `phoneFromFields`: the value of the first candidate
field, probed in order, that is present with a non-empty (truthy)
value. -/
def firstNonEmptyField (fs : List (String × Json)) : List String → Option Json
  | [] => none
  | k :: ks =>
    match jget fs k with
    | some v => if truthy v then some v else firstNonEmptyField fs ks
    | none => firstNonEmptyField fs ks

/-- Processing of one item of a primary page (api_client.py lines
187-207): dict items contribute `str(phone_num)` only when the probe is
truthy, string items are added as-is, and any other item is added as
`str(item)`. -/
def addPrimaryItem (acc : Finset String) (item : Json) : Finset String :=
  match item with
  | .obj fs =>
    if truthy (phoneFromFields fs) then insert (pyStr (phoneFromFields fs)) acc
    else acc
  | .str s => insert s acc
  | other => insert (pyStr other) acc

/-- Processing of one item of a fallback (`/endpoints`) page
(api_client.py lines 127-142): identical to `addPrimaryItem` except that
items that are neither dicts nor strings are ignored (there is no `else`
branch). -/
def addEndpointItem (acc : Finset String) (item : Json) : Finset String :=
  match item with
  | .obj fs =>
    if truthy (phoneFromFields fs) then insert (pyStr (phoneFromFields fs)) acc
    else acc
  | .str s => insert s acc
  | _ => acc

/-- One HTTP response: status code and decoded JSON body. -/
structure Response where
  status : Nat
  body : Json

/-- How the `while True` loop ended.  `finished` covers every `break`;
`httpError` is the `HTTPError` raised by `raise_for_status()` at line 161
(later caught by the function's own `except` clause); `transport` is a
network-level failure of a primary GET (modelled as running out of
responses), likewise caught by the outer `except` clause. -/
inductive LoopExit where
  | finished
  | httpError (status : Nat) (body : Json)
  | transport

/-- Outcome of one iteration of the `while True` loop: either the loop
ends (`stop`, carrying the accumulated set, the GET calls issued this
iteration and how the loop ended), or it continues (`next`, carrying the
updated set, the calls issued this iteration and the remaining pending
responses). -/
inductive StepResult where
  | stop (acc : Finset String) (calls : Nat) (ex : LoopExit)
  | next (acc : Finset String) (calls : Nat) (remaining : List Response)

/-- The 404 branch of one loop iteration (api_client.py lines 71-159):
when the URL rewriting succeeds, a fallback GET consumes the next pending
response; the loop continues (line 151) only when that response is a 200
whose page is non-empty, flagged `has_more`, and of exactly `limit`
items.  Every other path is a `break`; a missing response models the
fallback GET failing, caught by the inner `except` at line 157 (also a
`break`). -/
def fallbackStep (url : List Char) (limit : Nat) (rest : List Response)
    (acc : Finset String) : StepResult :=
  match fallbackUrl url with
  | none => .stop acc 1 .finished
  | some _ =>
    match rest with
    | [] => .stop acc 1 .finished
    | er :: rest2 =>
      if er.status = 200 then
        let pr := normalizeFallback er.body limit
        let acc2 := pr.1.foldl addEndpointItem acc
        if pr.1.isEmpty = false ∧ pr.2 = true ∧ pr.1.length = limit then
          .next acc2 2 rest2
        else .stop acc2 2 .finished
      else .stop acc 2 .finished

/-- One iteration of the `while True` loop of
`fetch_all_available_numbers` (api_client.py lines 56-213): consume the
next pending response as the primary GET, dispatch on its status, and
for a normal page run the normalizer, fold the field extractor over the
items (lines 185-207) and test the termination condition of line 210. -/
def loopStep (url : List Char) (limit : Nat) :
    List Response → Finset String → StepResult
  | [], acc => .stop acc 0 .transport
  | r :: rest, acc =>
    if r.status = 401 then
      .stop acc 1 .finished
    else if r.status = 404 then
      fallbackStep url limit rest acc
    else if 400 ≤ r.status ∧ r.status < 600 then
      .stop acc 1 (.httpError r.status r.body)
    else
      let pr := normalizePrimary r.body limit
      let acc2 := pr.1.foldl addPrimaryItem acc
      if pr.1.isEmpty = true ∨ pr.1.length < limit ∨ pr.2 = false then
        .stop acc2 1 .finished
      else
        .next acc2 1 rest

/-- Fuel-driven driver of the loop.  Each `next` step consumes at least
one pending response, so fuel `responses.length` is always sufficient
(`runLoop_fuel_congr` below); the fuel only makes the recursion
structural. -/
def runLoop (url : List Char) (limit : Nat) :
    Nat → List Response → Finset String → Finset String × Nat × LoopExit
  | 0, _, acc => (acc, 0, .transport)
  | fuel + 1, rs, acc =>
    match loopStep url limit rs acc with
    | .stop a c e => (a, c, e)
    | .next a c rs2 =>
      let res := runLoop url limit fuel rs2 a
      (res.1, c + res.2.1, res.2.2)

/-- The pagination loop of `fetch_all_available_numbers` (api_client.py
lines 55-213), parametrised by the phone-numbers URL (used only by the
404 fallback test), the page limit, the list of pending HTTP responses
(one consumed per GET, the fallback GET included), and the accumulated
set.  Returns the accumulated set, the number of GET calls issued, and
how the loop ended. -/
def fetchLoop (url : List Char) (limit : Nat) (responses : List Response)
    (acc : Finset String) : Finset String × Nat × LoopExit :=
  runLoop url limit responses.length responses acc

/-- The whole of `fetch_all_available_numbers`: the `try` block runs the
loop and the `except requests.exceptions.RequestException` handler only
logs, so the accumulated set is returned whichever way the loop ends. -/
def fetch_all_available_numbers (url : List Char) (limit : Nat)
    (responses : List Response) : Finset String :=
  (fetchLoop url limit responses ∅).1

/-- Number of GET calls issued by a run. -/
def fetchCalls (url : List Char) (limit : Nat) (responses : List Response) : Nat :=
  (fetchLoop url limit responses ∅).2.1

/-- Total number of items carried by a response sequence, as counted by
the primary normalizer. -/
def serverTotal (limit : Nat) (rs : List Response) : Nat :=
  (rs.map (fun r => (normalizePrimary r.body limit).1.length)).sum

/-- Replace a pair's value when its key is `k`. -/
def setPair (k : String) (v : Json) (p : String × Json) : String × Json :=
  if p.1 = k then (k, v) else p

/-- Python dict assignment `d[k] = v` on an association list: replace the
value when the key is present (dict keys are unique, so replacing every
matching pair is equivalent), append otherwise. -/
def jset (fs : List (String × Json)) (k : String) (v : Json) : List (String × Json) :=
  if (jget fs k).isSome then
    fs.map (setPair k v)
  else fs ++ [(k, v)]

/-- The connection-id probe of `_normalize_connections`
(multi_org_config.py lines 67-72): `conn.get("id") or
conn.get("connection_id") or conn.get("connectionId") or
conn.get("name")`. -/
def connIdOf (fs : List (String × Json)) : Json :=
  pyOr (pyGet fs "id")
    (pyOr (pyGet fs "connection_id")
      (pyOr (pyGet fs "connectionId") (pyGet fs "name")))

/-- The connection-id probe of `get_connections_from_workspace`
(utils.py lines 186-190): like `connIdOf` but with no `name` fallback. -/
def rawConnIdOf (fs : List (String × Json)) : Json :=
  pyOr (pyGet fs "id")
    (pyOr (pyGet fs "connection_id") (pyGet fs "connectionId"))

/-- `if "name" not in normalized_conn or not normalized_conn["name"]:
normalized_conn["name"] = ...` (multi_org_config.py lines 79-80 and
utils.py lines 195-196). -/
def connSetName (fs1 : List (String × Json)) (idval : Json) : List (String × Json) :=
  if (jget fs1 "name").isNone ∨ truthy ((jget fs1 "name").getD .null) = false then
    jset fs1 "name" idval
  else fs1

/-- `if "channel_provider" not in normalized_conn: normalized_conn
["channel_provider"] = normalized_conn.get("provider") or "exotel"`
(multi_org_config.py lines 82-86). -/
def connSetProvider (fs2 : List (String × Json)) : List (String × Json) :=
  if (jget fs2 "channel_provider").isNone then
    jset fs2 "channel_provider" (pyOr (pyGet fs2 "provider") (.str "exotel"))
  else fs2

/-- Normalization of one connection by `_normalize_connections`
(multi_org_config.py lines 58-91); `none` means the connection is
skipped with a warning.  Strings become `{"id": conn, "name": conn}`
when non-empty and not whitespace-only; dicts keep their fields with
`id` (stripped), `name` and `channel_provider` ensured; anything else is
skipped. -/
def normalizeConn (conn : Json) : Option Json :=
  match conn with
  | .str s =>
    if s ≠ "" ∧ pyStrip s ≠ "" then
      some (.obj [("id", .str s), ("name", .str s)])
    else none
  | .obj fs =>
    if truthy (connIdOf fs) = true ∧ pyStrip (pyStr (connIdOf fs)) ≠ "" then
      some (.obj (connSetProvider (connSetName
        (jset fs "id" (.str (pyStrip (pyStr (connIdOf fs)))))
        (.str (pyStrip (pyStr (connIdOf fs)))))))
    else none
  | _ => none

/-- `_normalize_connections` (multi_org_config.py lines 45-92): the
Python loop appends at most one normalized connection per input
element. -/
def normalizeConnections (conns : List Json) : List Json :=
  conns.filterMap normalizeConn

/-- Normalization of one connection by `get_connections_from_workspace`
(utils.py lines 176-201): like `normalizeConn` but the id probe has no
`name` fallback and there is no `channel_provider` step. -/
def connFromRaw (conn : Json) : Option Json :=
  match conn with
  | .str s =>
    if s ≠ "" ∧ pyStrip s ≠ "" then
      some (.obj [("id", .str s), ("name", .str s)])
    else none
  | .obj fs =>
    if truthy (rawConnIdOf fs) = true ∧ pyStrip (pyStr (rawConnIdOf fs)) ≠ "" then
      some (.obj (connSetName
        (jset fs "id" (.str (pyStrip (pyStr (rawConnIdOf fs)))))
        (.str (pyStrip (pyStr (rawConnIdOf fs))))))
    else none
  | _ => none

/-- The inline connection normalization of `get_connections_from_workspace`
(utils.py lines 174-201). -/
def connectionsFromRaw (conns : List Json) : List Json :=
  conns.filterMap connFromRaw

/-- `save_to_csv` (helpers.py lines 55-71), modelled at the record level:
the written file is a header row `["phone_number"]` followed by one
single-field row per number, in sorted order. -/
def save_to_csv (numbers : Finset String) : List (List String) :=
  ["phone_number"] :: (numbers.sort (· ≤ ·)).map (fun n => [n])

/-- The value of `row[key]` as produced by `csv.DictReader`: `none` when
`key` is not a header column at all; a missing trailing field (DictReader's
`restval=None`) is modelled as `""`, which the loader skips exactly like
`None`. -/
def rowValue (header row : List String) (key : String) : Option String :=
  match header.findIdx? (· = key) with
  | none => none
  | some i => some ((row.get? i).getD "")

/-- `load_from_csv` (helpers.py lines 74-96), at the record level: the
first row is the header; each later row contributes its `phone_number`
field when present and non-empty. -/
def load_from_csv (rows : List (List String)) : Finset String :=
  match rows with
  | [] => ∅
  | header :: rest =>
    rest.foldl
      (fun acc row =>
        match rowValue header row "phone_number" with
        | some v => if v ≠ "" then insert v acc else acc
        | none => acc) ∅

/-! ## String-splitting lemmas -/

/-- Each `splitFirst` step strictly shortens the string, so the fuel
`s.length` used by `afterLast` is always sufficient. -/
theorem splitFirst_post_length {sep s : List Char} {q : List Char × List Char}
    (h : splitFirst sep s = some q) : q.2.length < s.length := by
  induction s generalizing q with
  | nil => simp [splitFirst] at h
  | cons c t ih =>
    rw [splitFirst] at h
    split at h
    · rename_i hcond
      cases h
      have hsep : 1 ≤ sep.length := by
        cases sep with
        | nil => exact absurd rfl hcond.1
        | cons a b => simp
      simp only [List.length_drop, List.length_cons]
      omega
    · rcases Option.map_eq_some'.mp h with ⟨q', hq', hq2⟩
      have := ih hq'
      rw [← hq2]
      simp only [List.length_cons]
      omega

theorem occurs_false_iff {sep s : List Char} :
    occurs sep s = false ↔ splitFirst sep s = none := by
  unfold occurs
  cases splitFirst sep s <;> simp

theorem splitFirst_isSome_of_isPrefixOf {sep s : List Char} (hsep : sep ≠ [])
    (h : sep.isPrefixOf s = true) : (splitFirst sep s).isSome = true := by
  cases s with
  | nil =>
    have : sep <+: [] := List.isPrefixOf_iff_prefix.mp h
    exact absurd (List.prefix_nil.mp this) hsep
  | cons c t =>
    rw [splitFirst]
    simp [hsep, h]

theorem splitFirst_append_of_not_occurs {sep A B : List Char} (hsep : sep ≠ [])
    (h : occurs sep ((A ++ sep).dropLast) = false) :
    splitFirst sep (A ++ sep ++ B) = some (A, B) := by
  induction A with
  | nil =>
    cases sep with
    | nil => exact absurd rfl hsep
    | cons a sa =>
      simp only [List.nil_append, List.cons_append]
      rw [splitFirst]
      have hpre : (a :: sa).isPrefixOf (a :: (sa ++ B)) = true := by
        have : (a :: sa).isPrefixOf ((a :: sa) ++ B) = true :=
          List.isPrefixOf_iff_prefix.mpr (List.prefix_append _ _)
        simpa using this
      have hcd : (a :: sa) ≠ ([] : List Char) := by simp
      rw [if_pos ⟨hcd, hpre⟩]
      have hdrop : (a :: (sa ++ B)).drop (a :: sa).length = B := by
        have := List.drop_left (a :: sa) B
        simpa using this
      rw [hdrop]
  | cons a A' ih =>
    have hne : A' ++ sep ≠ [] := by
      intro hcontra
      exact hsep (List.append_eq_nil.mp hcontra).2
    have hdl : ((a :: A') ++ sep).dropLast = a :: (A' ++ sep).dropLast := by
      show (a :: (A' ++ sep)).dropLast = _
      exact List.dropLast_cons_of_ne_nil hne
    rw [hdl] at h
    -- split the non-occurrence fact on `a :: X` into its two parts
    have hsplit : splitFirst sep (a :: (A' ++ sep).dropLast) = none :=
      occurs_false_iff.mp h
    rw [splitFirst] at hsplit
    have hXnone : splitFirst sep ((A' ++ sep).dropLast) = none := by
      by_cases hc : sep ≠ [] ∧ sep.isPrefixOf (a :: (A' ++ sep).dropLast) = true
      · rw [if_pos hc] at hsplit; exact absurd hsplit (by simp)
      · rw [if_neg hc] at hsplit
        exact Option.map_eq_none'.mp hsplit
    have hApre : ¬ sep.isPrefixOf (a :: (A' ++ sep).dropLast) = true := by
      intro hc
      rw [if_pos ⟨hsep, hc⟩] at hsplit; exact absurd hsplit (by simp)
    have ihres := ih (occurs_false_iff.mpr hXnone)
    show splitFirst sep (a :: (A' ++ sep ++ B)) = some (a :: A', B)
    rw [splitFirst]
    have hlastc : (A' ++ sep).dropLast ++ [(A' ++ sep).getLast hne] = A' ++ sep :=
      List.dropLast_append_getLast hne
    have hnotpre : ¬ sep.isPrefixOf (a :: (A' ++ sep ++ B)) = true := by
      intro hc
      have hp : sep <+: a :: (A' ++ sep ++ B) := List.isPrefixOf_iff_prefix.mp hc
      have hshape : a :: (A' ++ sep ++ B)
          = (a :: (A' ++ sep).dropLast) ++ ([(A' ++ sep).getLast hne] ++ B) := by
        show a :: (A' ++ sep ++ B)
          = a :: ((A' ++ sep).dropLast ++ ([(A' ++ sep).getLast hne] ++ B))
        rw [← List.append_assoc, hlastc]
      have hshort : (a :: (A' ++ sep).dropLast) <+: a :: (A' ++ sep ++ B) := by
        rw [hshape]
        exact List.prefix_append _ _
      have hlen : sep.length ≤ (a :: (A' ++ sep).dropLast).length := by
        have h1 : (A' ++ sep).length = (A' ++ sep).dropLast.length + 1 := by
          rw [← hlastc]; simp
        have h2 : (A' ++ sep).length = A'.length + sep.length := by simp
        simp only [List.length_cons]
        omega
      have hfin : sep <+: a :: (A' ++ sep).dropLast :=
        List.prefix_of_prefix_length_le hp hshort hlen
      exact hApre (List.isPrefixOf_iff_prefix.mpr hfin)
    rw [if_neg (fun hcon => hnotpre hcon.2)]
    rw [ihres]
    rfl

theorem firstPart_append_of_not_occurs {sep A B : List Char} (hsep : sep ≠ [])
    (h : occurs sep ((A ++ sep).dropLast) = false) :
    firstPart sep (A ++ sep ++ B) = A := by
  unfold firstPart
  rw [splitFirst_append_of_not_occurs hsep h]

theorem afterLastAux_of_none {sep s : List Char} (h : splitFirst sep s = none) :
    ∀ fuel, afterLastAux sep fuel s = s := by
  intro fuel
  cases fuel with
  | zero => rfl
  | succ n => rw [afterLastAux, h]

theorem afterLast_append_of_not_occurs {sep A B : List Char} (hsep : sep ≠ [])
    (h : occurs sep ((A ++ sep).dropLast) = false)
    (hB : occurs sep B = false) :
    afterLast sep (A ++ sep ++ B) = B := by
  unfold afterLast
  have hsf := @splitFirst_append_of_not_occurs sep A B hsep h
  have hlen : (A ++ sep ++ B).length = (A.length + B.length) + sep.length := by
    simp; omega
  have hpos : 1 ≤ sep.length := by
    cases sep with
    | nil => exact absurd rfl hsep
    | cons a b => simp
  obtain ⟨n, hn⟩ : ∃ n, (A ++ sep ++ B).length = n + 1 := by
    refine ⟨(A.length + B.length) + sep.length - 1, ?_⟩
    omega
  rw [hn, afterLastAux, hsf]
  exact afterLastAux_of_none (occurs_false_iff.mp hB) n

/-! ## C7: fallback URL rewriting -/

/-- C7: for every primary URL of the form
`{base}/orgs/{o}/workspaces/{w}/channels/v2v/providers/{p}/connections/{c}/phone-numbers`
(with well-formed path segments: the hypotheses say that the marker
substrings `/channels/v2v/providers/` and `/connections/` do not occur
earlier or later than at their intended position, that `c` contains no
slash, and that `c` is non-empty), the Fallback Resolver's URL is exactly
`{base}/orgs/{o}/workspaces/{w}/connections/{c}/endpoints`: the
`/channels/v2v/providers/{p}/` segment is removed and `/phone-numbers` is
replaced by `/endpoints`.  Confirms the claim. -/
theorem C7_fallback_url_rewrite (base o w p c : List Char)
    (h1 : occurs provSeg
      (((base ++ "/orgs/".toList ++ o ++ "/workspaces/".toList ++ w) ++ provSeg).dropLast)
      = false)
    (h2 : occurs connSeg
      (((base ++ "/orgs/".toList ++ o ++ "/workspaces/".toList ++ w ++ provSeg ++ p)
        ++ connSeg).dropLast) = false)
    (h3 : occurs connSeg (c ++ "/phone-numbers".toList) = false)
    (h4 : occurs "/".toList c = false)
    (h5 : c ≠ []) :
    fallbackUrl (mkPrimaryUrl base o w p c)
      = some ((base ++ "/orgs/".toList ++ o ++ "/workspaces/".toList ++ w)
          ++ connSeg ++ c ++ "/endpoints".toList) := by
  have hps : provSeg ≠ [] := by decide
  have hcs : connSeg ≠ [] := by decide
  have hsl : ("/".toList : List Char) ≠ [] := by decide
  have hurl : mkPrimaryUrl base o w p c
      = (base ++ "/orgs/".toList ++ o ++ "/workspaces/".toList ++ w) ++ provSeg
        ++ (p ++ connSeg ++ c ++ "/phone-numbers".toList) := by
    simp [mkPrimaryUrl, List.append_assoc]
  have hurl2 : mkPrimaryUrl base o w p c
      = (base ++ "/orgs/".toList ++ o ++ "/workspaces/".toList ++ w ++ provSeg ++ p)
        ++ connSeg ++ (c ++ "/phone-numbers".toList) := by
    simp [mkPrimaryUrl, List.append_assoc]
  have hsf1 := @splitFirst_append_of_not_occurs provSeg
    (base ++ "/orgs/".toList ++ o ++ "/workspaces/".toList ++ w)
    (p ++ connSeg ++ c ++ "/phone-numbers".toList) hps h1
  have hsf2 := @splitFirst_append_of_not_occurs connSeg
    (base ++ "/orgs/".toList ++ o ++ "/workspaces/".toList ++ w ++ provSeg ++ p)
    (c ++ "/phone-numbers".toList) hcs h2
  have hocc1 : occurs provSeg (mkPrimaryUrl base o w p c) = true := by
    rw [hurl]; unfold occurs; rw [hsf1]; rfl
  have hocc2 : occurs connSeg (mkPrimaryUrl base o w p c) = true := by
    rw [hurl2]; unfold occurs; rw [hsf2]; rfl
  have hfp1 : firstPart provSeg (mkPrimaryUrl base o w p c)
      = base ++ "/orgs/".toList ++ o ++ "/workspaces/".toList ++ w := by
    rw [hurl]
    exact firstPart_append_of_not_occurs hps h1
  have hal : afterLast connSeg (mkPrimaryUrl base o w p c)
      = c ++ "/phone-numbers".toList := by
    rw [hurl2]
    exact afterLast_append_of_not_occurs hcs h2 h3
  have hph : ("/phone-numbers".toList : List Char)
      = "/".toList ++ "phone-numbers".toList := by decide
  have hdc : (c ++ "/".toList).dropLast = c := by
    have hone : ("/".toList : List Char) = ['/'] := by decide
    rw [hone]
    exact List.dropLast_concat
  have h4' : occurs "/".toList ((c ++ "/".toList).dropLast) = false := by
    rw [hdc]; exact h4
  have hfp2 : firstPart "/".toList (c ++ "/phone-numbers".toList) = c := by
    rw [hph, ← List.append_assoc]
    exact firstPart_append_of_not_occurs hsl h4'
  unfold fallbackUrl
  rw [hocc1, hocc2]
  simp only [if_true]
  rw [hal, hfp2, hfp1]
  rw [if_pos h5]

/-- Witness for C7 at a concrete URL. -/
theorem C7_fallback_url_rewrite_witness :
    fallbackUrl (mkPrimaryUrl "https://api.example.com/api/app-authoring".toList
        "org1".toList "ws1".toList "exotel".toList "conn1".toList)
      = some (("https://api.example.com/api/app-authoring".toList
          ++ "/orgs/".toList ++ "org1".toList ++ "/workspaces/".toList ++ "ws1".toList)
          ++ connSeg ++ "conn1".toList ++ "/endpoints".toList) :=
  C7_fallback_url_rewrite "https://api.example.com/api/app-authoring".toList
    "org1".toList "ws1".toList "exotel".toList "conn1".toList
    (by decide) (by decide) (by decide) (by decide) (by decide)

/-! ## Pagination loop unfolding lemmas -/

theorem loopStep_cons (url : List Char) (L : Nat) (r : Response)
    (rest : List Response) (acc : Finset String) :
    loopStep url L (r :: rest) acc =
      (if r.status = 401 then .stop acc 1 .finished
       else if r.status = 404 then fallbackStep url L rest acc
       else if 400 ≤ r.status ∧ r.status < 600 then
         .stop acc 1 (.httpError r.status r.body)
       else if (normalizePrimary r.body L).1.isEmpty = true
           ∨ (normalizePrimary r.body L).1.length < L
           ∨ (normalizePrimary r.body L).2 = false then
         .stop ((normalizePrimary r.body L).1.foldl addPrimaryItem acc) 1 .finished
       else
         .next ((normalizePrimary r.body L).1.foldl addPrimaryItem acc) 1 rest) := rfl

theorem fallbackStep_none {url : List Char} (L : Nat) (rest : List Response)
    (acc : Finset String) (hfb : fallbackUrl url = none) :
    fallbackStep url L rest acc = .stop acc 1 .finished := by
  unfold fallbackStep
  rw [hfb]

theorem fallbackStep_some_nil {url u : List Char} (L : Nat)
    (acc : Finset String) (hfb : fallbackUrl url = some u) :
    fallbackStep url L [] acc = .stop acc 1 .finished := by
  unfold fallbackStep
  rw [hfb]

theorem fallbackStep_some_cons {url u : List Char} (L : Nat) (er : Response)
    (rest2 : List Response) (acc : Finset String) (hfb : fallbackUrl url = some u) :
    fallbackStep url L (er :: rest2) acc =
      (if er.status = 200 then
        (if (normalizeFallback er.body L).1.isEmpty = false
            ∧ (normalizeFallback er.body L).2 = true
            ∧ (normalizeFallback er.body L).1.length = L then
          .next ((normalizeFallback er.body L).1.foldl addEndpointItem acc) 2 rest2
        else .stop ((normalizeFallback er.body L).1.foldl addEndpointItem acc) 2 .finished)
      else .stop acc 2 .finished) := by
  unfold fallbackStep
  rw [hfb]

theorem loopStep_shrinks {url : List Char} {L : Nat} {rs : List Response}
    {acc a : Finset String} {c : Nat} {rs2 : List Response}
    (h : loopStep url L rs acc = .next a c rs2) : rs2.length < rs.length := by
  cases rs with
  | nil => simp [loopStep] at h
  | cons r rest =>
    rw [loopStep_cons] at h
    by_cases h401 : r.status = 401
    · rw [if_pos h401] at h; cases h
    rw [if_neg h401] at h
    by_cases h404 : r.status = 404
    · rw [if_pos h404] at h
      cases hf : fallbackUrl url with
      | none => rw [fallbackStep_none L rest acc hf] at h; cases h
      | some u =>
        cases rest with
        | nil => rw [fallbackStep_some_nil L acc hf] at h; cases h
        | cons er rest2 =>
          rw [fallbackStep_some_cons L er rest2 acc hf] at h
          by_cases h200 : er.status = 200
          · rw [if_pos h200] at h
            by_cases hcont : (normalizeFallback er.body L).1.isEmpty = false
                ∧ (normalizeFallback er.body L).2 = true
                ∧ (normalizeFallback er.body L).1.length = L
            · rw [if_pos hcont] at h
              cases h
              simp
              omega
            · rw [if_neg hcont] at h; cases h
          · rw [if_neg h200] at h; cases h
    rw [if_neg h404] at h
    by_cases herr : 400 ≤ r.status ∧ r.status < 600
    · rw [if_pos herr] at h; cases h
    rw [if_neg herr] at h
    by_cases hstop : (normalizePrimary r.body L).1.isEmpty = true
        ∨ (normalizePrimary r.body L).1.length < L
        ∨ (normalizePrimary r.body L).2 = false
    · rw [if_pos hstop] at h; cases h
    · rw [if_neg hstop] at h
      cases h
      simp

theorem runLoop_fuel_congr {url : List Char} {L : Nat} :
    ∀ f1 f2 (rs : List Response) (acc : Finset String),
      rs.length ≤ f1 → rs.length ≤ f2 →
      runLoop url L f1 rs acc = runLoop url L f2 rs acc := by
  intro f1
  induction f1 with
  | zero =>
    intro f2 rs acc h1 _
    have hnil : rs = [] := List.eq_nil_of_length_eq_zero (Nat.le_zero.mp h1)
    subst hnil
    cases f2 with
    | zero => rfl
    | succ g2 => simp [runLoop, loopStep]
  | succ g1 ih =>
    intro f2 rs acc _ h2
    cases f2 with
    | zero =>
      have hnil : rs = [] := List.eq_nil_of_length_eq_zero (Nat.le_zero.mp h2)
      subst hnil
      simp [runLoop, loopStep]
    | succ g2 =>
      rw [runLoop, runLoop]
      cases hstep : loopStep url L rs acc with
      | stop a c e => simp only [hstep]
      | next a c rs2 =>
        simp only [hstep]
        have hlt := loopStep_shrinks hstep
        rw [ih g2 rs2 a (by omega) (by omega)]

/-- The recurrence satisfied by the loop: one iteration via `loopStep`,
then recurse on the remaining responses. -/
theorem fetchLoop_eq (url : List Char) (L : Nat) (rs : List Response)
    (acc : Finset String) :
    fetchLoop url L rs acc =
      (match loopStep url L rs acc with
       | .stop a c e => (a, c, e)
       | .next a c rs2 =>
         let res := fetchLoop url L rs2 a
         (res.1, c + res.2.1, res.2.2)) := by
  unfold fetchLoop
  cases rs with
  | nil => simp [runLoop, loopStep]
  | cons r rest =>
    show runLoop url L (rest.length + 1) (r :: rest) acc = _
    rw [runLoop]
    cases hstep : loopStep url L (r :: rest) acc with
    | stop a c e => simp only [hstep]
    | next a c rs2 =>
      simp only [hstep]
      have hlt := loopStep_shrinks hstep
      simp only [List.length_cons] at hlt
      rw [runLoop_fuel_congr rest.length rs2.length rs2 a (by omega) (by omega)]

theorem fetchLoop_nil (url : List Char) (L : Nat) (acc : Finset String) :
    fetchLoop url L [] acc = (acc, 0, .transport) := rfl

theorem fetchLoop_401 {r : Response} (url : List Char) (L : Nat)
    (rest : List Response) (acc : Finset String) (h : r.status = 401) :
    fetchLoop url L (r :: rest) acc = (acc, 1, .finished) := by
  rw [fetchLoop_eq, loopStep_cons, if_pos h]

theorem fetchLoop_httpError {r : Response} (url : List Char) (L : Nat)
    (rest : List Response) (acc : Finset String)
    (h400 : 400 ≤ r.status) (h600 : r.status < 600)
    (h401 : r.status ≠ 401) (h404 : r.status ≠ 404) :
    fetchLoop url L (r :: rest) acc = (acc, 1, .httpError r.status r.body) := by
  rw [fetchLoop_eq, loopStep_cons, if_neg h401, if_neg h404, if_pos ⟨h400, h600⟩]

theorem fetchLoop_page_stop {r : Response} (url : List Char) (L : Nat)
    (rest : List Response) (acc : Finset String)
    (h401 : r.status ≠ 401) (h404 : r.status ≠ 404)
    (herr : ¬(400 ≤ r.status ∧ r.status < 600))
    (hstop : (normalizePrimary r.body L).1.isEmpty = true
      ∨ (normalizePrimary r.body L).1.length < L
      ∨ (normalizePrimary r.body L).2 = false) :
    fetchLoop url L (r :: rest) acc
      = ((normalizePrimary r.body L).1.foldl addPrimaryItem acc, 1, .finished) := by
  rw [fetchLoop_eq, loopStep_cons, if_neg h401, if_neg h404, if_neg herr, if_pos hstop]

theorem fetchLoop_page_cont {r : Response} (url : List Char) (L : Nat)
    (rest : List Response) (acc : Finset String)
    (h401 : r.status ≠ 401) (h404 : r.status ≠ 404)
    (herr : ¬(400 ≤ r.status ∧ r.status < 600))
    (hcont : ¬((normalizePrimary r.body L).1.isEmpty = true
      ∨ (normalizePrimary r.body L).1.length < L
      ∨ (normalizePrimary r.body L).2 = false)) :
    fetchLoop url L (r :: rest) acc
      = ((fetchLoop url L rest ((normalizePrimary r.body L).1.foldl addPrimaryItem acc)).1,
         (fetchLoop url L rest ((normalizePrimary r.body L).1.foldl addPrimaryItem acc)).2.1 + 1,
         (fetchLoop url L rest ((normalizePrimary r.body L).1.foldl addPrimaryItem acc)).2.2) := by
  rw [fetchLoop_eq, loopStep_cons, if_neg h401, if_neg h404, if_neg herr, if_neg hcont]
  simp [Nat.add_comm]

theorem fetchLoop_404_stop {r er : Response} (url u : List Char) (L : Nat)
    (rest : List Response) (acc : Finset String)
    (h404 : r.status = 404) (hfb : fallbackUrl url = some u) (h200 : er.status = 200)
    (hnc : ¬((normalizeFallback er.body L).1.isEmpty = false
      ∧ (normalizeFallback er.body L).2 = true
      ∧ (normalizeFallback er.body L).1.length = L)) :
    fetchLoop url L (r :: er :: rest) acc
      = ((normalizeFallback er.body L).1.foldl addEndpointItem acc, 2, .finished) := by
  have h401 : r.status ≠ 401 := by rw [h404]; decide
  rw [fetchLoop_eq, loopStep_cons, if_neg h401, if_pos h404,
    fallbackStep_some_cons L er rest acc hfb, if_pos h200, if_neg hnc]

/-! ## C1: error statuses other than 401/404 -/

/-- C1, amended: when a page request returns an HTTP error status `>= 400`
other than 401 and 404, `raise_for_status()` raises an `HTTPError`
(recorded here as the internal loop exit carrying the upstream status and
body), but `HTTPError` is a subclass of `RequestException` and is caught
by the function's own `except` clause (api_client.py line 215), so
`fetch_all_available_numbers` stops and returns the accumulated set
normally to its caller: no exception propagates. -/
theorem C1_http_error_swallowed (url : List Char) (L : Nat) (r : Response)
    (rest : List Response)
    (h400 : 400 ≤ r.status) (h600 : r.status < 600)
    (h401 : r.status ≠ 401) (h404 : r.status ≠ 404) :
    (∀ acc, fetchLoop url L (r :: rest) acc = (acc, 1, .httpError r.status r.body))
      ∧ fetch_all_available_numbers url L (r :: rest) = ∅ := by
  constructor
  · intro acc
    exact fetchLoop_httpError url L rest acc h400 h600 h401 h404
  · unfold fetch_all_available_numbers
    rw [fetchLoop_httpError url L rest ∅ h400 h600 h401 h404]

/-- Witness for C1 at status 500. -/
theorem C1_http_error_swallowed_witness :
    ((400 ≤ 500 ∧ 500 < 600 ∧ 500 ≠ 401 ∧ 500 ≠ 404)
      ∧ fetchLoop "u".toList 100 [⟨500, .str "boom"⟩] ∅
          = (∅, 1, .httpError 500 (.str "boom"))
      ∧ fetch_all_available_numbers "u".toList 100 [⟨500, .str "boom"⟩] = ∅) :=
  have h := C1_http_error_swallowed "u".toList 100 ⟨500, .str "boom"⟩ []
    (by decide) (by decide) (by decide) (by decide)
  ⟨⟨by decide, by decide, by decide, by decide⟩, h.1 ∅, h.2⟩

/-- C1, counterexample to the claim as stated: for the single response
`500 "boom"` the loop raises internally (exit `httpError 500 "boom"`), yet
the fetcher returns normally with the accumulated (empty) set - it does
not raise an API error to its caller. -/
theorem C1_counterexample :
    fetch_all_available_numbers "u".toList 100 [⟨500, .str "boom"⟩] = (∅ : Finset String)
      ∧ (fetchLoop "u".toList 100 [⟨500, .str "boom"⟩] ∅).2.2
          = LoopExit.httpError 500 (.str "boom") := by
  exact ⟨rfl, rfl⟩

/-! ## C8: 401 stops pagination and returns the accumulated set -/

/-- C8: when a page request returns HTTP 401 the loop stops immediately
(exit `finished`, i.e. a plain `break`, not an exception) and the set
accumulated so far is returned; starting from an empty accumulation the
caller receives the empty set.  Confirms the claim. -/
theorem C8_auth_401_stops (url : List Char) (L : Nat) (r : Response)
    (rest : List Response) (h : r.status = 401) :
    (∀ acc, fetchLoop url L (r :: rest) acc = (acc, 1, .finished))
      ∧ fetch_all_available_numbers url L (r :: rest) = ∅ := by
  constructor
  · intro acc
    exact fetchLoop_401 url L rest acc h
  · unfold fetch_all_available_numbers
    rw [fetchLoop_401 url L rest ∅ h]

/-- Witness for C8. -/
theorem C8_auth_401_stops_witness :
    ((401 : Nat) = 401
      ∧ fetchLoop "u".toList 100 [⟨401, .null⟩] {"+91"} = ({"+91"}, 1, .finished)
      ∧ fetch_all_available_numbers "u".toList 100 [⟨401, .null⟩] = ∅) :=
  have h := C8_auth_401_stops "u".toList 100 ⟨401, .null⟩ [] rfl
  ⟨rfl, h.1 {"+91"}, h.2⟩

/-! ## C3: termination and call bound of the pagination loop -/

theorem fetchLoop_calls_le (url : List Char) {L : Nat} (hL : 0 < L) :
    ∀ (rs : List Response) (acc : Finset String), (∀ r ∈ rs, r.status ≠ 404) →
      (fetchLoop url L rs acc).2.1 ≤ serverTotal L rs / L + 1 := by
  intro rs
  induction rs with
  | nil =>
    intro acc _
    rw [fetchLoop_nil]
    simp
  | cons r rest ih =>
    intro acc hno
    have h404 : r.status ≠ 404 := hno r (List.mem_cons_self r rest)
    have hrest : ∀ x ∈ rest, x.status ≠ 404 :=
      fun x hx => hno x (List.mem_cons_of_mem r hx)
    have htot : serverTotal L (r :: rest)
        = (normalizePrimary r.body L).1.length + serverTotal L rest := by
      simp [serverTotal]
    by_cases h401 : r.status = 401
    · rw [fetchLoop_401 url L rest acc h401]
      simp
    by_cases herr : 400 ≤ r.status ∧ r.status < 600
    · rw [fetchLoop_httpError url L rest acc herr.1 herr.2 h401 h404]
      simp
    by_cases hstop : (normalizePrimary r.body L).1.isEmpty = true
        ∨ (normalizePrimary r.body L).1.length < L
        ∨ (normalizePrimary r.body L).2 = false
    · rw [fetchLoop_page_stop url L rest acc h401 h404 herr hstop]
      simp
    · rw [fetchLoop_page_cont url L rest acc h401 h404 herr hstop]
      have hlen : L ≤ (normalizePrimary r.body L).1.length := by
        simp only [not_or] at hstop
        omega
      have hcall := ih ((normalizePrimary r.body L).1.foldl addPrimaryItem acc) hrest
      show (fetchLoop url L rest
        ((normalizePrimary r.body L).1.foldl addPrimaryItem acc)).2.1 + 1
        ≤ serverTotal L (r :: rest) / L + 1
      rw [htot]
      have hdiv : serverTotal L rest / L + 1
          ≤ ((normalizePrimary r.body L).1.length + serverTotal L rest) / L := by
        calc serverTotal L rest / L + 1
            = (serverTotal L rest + L) / L := (Nat.add_div_right _ hL).symm
          _ ≤ _ := Nat.div_le_div_right (by omega)
      omega

/-- C3, amended: the loop is total on every finite response sequence by
construction (the model consumes at least one pending response per
iteration), and when no page request returns 404 it issues at most
`ceil(total_items / L) + 1` GET calls; in particular, for three
consecutive pages of sizes `[100, 100, 37]` at limit 100 it issues
exactly 3 GET calls, stopping after the short 37-item page whatever the
`has_more` flag of that page says.  The claim's bound had to be
restricted to 404-free sequences: each 404-fallback iteration issues two
GET calls per page (see the counterexample). -/
theorem C3_pagination_bound :
    (∀ (url : List Char) (L : Nat) (rs : List Response),
        0 < L → (∀ r ∈ rs, r.status ≠ 404) →
        fetchCalls url L rs ≤ (serverTotal L rs + L - 1) / L + 1)
    ∧ (∀ hm : Bool,
        fetchCalls "u".toList 100
          [⟨200, .obj [("items", .arr (List.replicate 100 (Json.str "n")))]⟩,
           ⟨200, .obj [("items", .arr (List.replicate 100 (Json.str "n")))]⟩,
           ⟨200, .obj [("items", .arr (List.replicate 37 (Json.str "n"))),
             ("has_more", .bool hm)]⟩] = 3) := by
  constructor
  · intro url L rs hL hno
    have h := fetchLoop_calls_le url hL rs ∅ hno
    have hmono : serverTotal L rs / L ≤ (serverTotal L rs + L - 1) / L :=
      Nat.div_le_div_right (by omega)
    unfold fetchCalls
    omega
  · intro hm
    cases hm <;> decide

/-- Witness for C3 at a concrete 404-free run. -/
theorem C3_pagination_bound_witness :
    ((0 : Nat) < 100
      ∧ (∀ r ∈ ([⟨200, .obj [("items", .arr (List.replicate 100 (Json.str "n")))]⟩,
          ⟨200, .obj [("items", .arr [])]⟩] : List Response), r.status ≠ 404))
    ∧ fetchCalls "u".toList 100
        [⟨200, .obj [("items", .arr (List.replicate 100 (Json.str "n")))]⟩,
         ⟨200, .obj [("items", .arr [])]⟩]
      ≤ (serverTotal 100
          [⟨200, .obj [("items", .arr (List.replicate 100 (Json.str "n")))]⟩,
           ⟨200, .obj [("items", .arr [])]⟩] + 100 - 1) / 100 + 1
    ∧ fetchCalls "u".toList 100
        [⟨200, .obj [("items", .arr (List.replicate 100 (Json.str "n")))]⟩,
         ⟨200, .obj [("items", .arr (List.replicate 37 (Json.str "n"))),
           ("has_more", .bool true)]⟩,
         ⟨200, .obj [("items", .arr (List.replicate 100 (Json.str "n")))]⟩] = 2 := by
  refine ⟨⟨by decide, by decide⟩, ?_, ?_⟩
  · exact C3_pagination_bound.1 "u".toList 100 _ (by decide) (by decide)
  · decide

/-- C3, counterexample to the claim as stated: at limit 1, a run in which
the primary URL twice returns 404 and the fallback serves one full page
then one empty page delivers `total_items = 1` item but issues 4 GET
calls, exceeding the claimed bound `ceil(1/1) + 1 = 2` (each fallback
iteration issues two GETs: the 404 primary plus the endpoints GET). -/
theorem C3_counterexample :
    fetchCalls ("a/channels/v2v/providers/p/connections/c1/phone-numbers".toList) 1
        [⟨404, .null⟩,
         ⟨200, .obj [("items", .arr [Json.str "+91"]), ("has_more", .bool true)]⟩,
         ⟨404, .null⟩,
         ⟨200, .obj [("items", .arr [])]⟩] = 4
      ∧ serverTotal 1
          [⟨404, .null⟩,
           ⟨200, .obj [("items", .arr [Json.str "+91"]), ("has_more", .bool true)]⟩,
           ⟨404, .null⟩,
           ⟨200, .obj [("items", .arr [])]⟩] = 1
      ∧ ¬(4 ≤ (1 + 1 - 1) / 1 + 1) := by
  exact ⟨by decide, by decide, by decide⟩

/-! ## C4: the fallback accumulation is merged into the result -/

/-- C4, amended: far from being a separate accumulation, the numbers the
Fallback Resolver extracts are added to the very same `available` set
(api_client.py lines 138 and 141), which is the value returned by the
original `fetch_all_available_numbers` call; when the fallback page does
not satisfy the continue condition the call returns exactly the fold of
the endpoint extractor over the fallback items. -/
theorem C4_fallback_merged (url u : List Char) (L : Nat) (r er : Response)
    (rest : List Response)
    (h404 : r.status = 404) (hfb : fallbackUrl url = some u) (h200 : er.status = 200)
    (hnc : ¬((normalizeFallback er.body L).1.isEmpty = false
      ∧ (normalizeFallback er.body L).2 = true
      ∧ (normalizeFallback er.body L).1.length = L)) :
    (∀ acc, fetchLoop url L (r :: er :: rest) acc
      = ((normalizeFallback er.body L).1.foldl addEndpointItem acc, 2, .finished))
    ∧ fetch_all_available_numbers url L (r :: er :: rest)
      = (normalizeFallback er.body L).1.foldl addEndpointItem ∅ := by
  constructor
  · intro acc
    exact fetchLoop_404_stop url u L rest acc h404 hfb h200 hnc
  · unfold fetch_all_available_numbers
    rw [fetchLoop_404_stop url u L rest ∅ h404 hfb h200 hnc]

/-- Witness for C4 at a concrete run. -/
theorem C4_fallback_merged_witness :
    fetch_all_available_numbers
        ("a/channels/v2v/providers/p/connections/c1/phone-numbers".toList) 100
        [⟨404, .null⟩, ⟨200, .obj [("items", .arr [Json.str "+911"])]⟩]
      = (normalizeFallback (.obj [("items", .arr [Json.str "+911"])]) 100).1.foldl
          addEndpointItem ∅ :=
  (C4_fallback_merged ("a/channels/v2v/providers/p/connections/c1/phone-numbers".toList)
    ("a/connections/c1/endpoints".toList) 100 ⟨404, .null⟩
    ⟨200, .obj [("items", .arr [Json.str "+911"])]⟩ []
    rfl (by decide) rfl (by decide)).2

/-- C4, counterexample to the claim as stated: with the primary request
returning 404 and the fallback serving the single number `+911`, the set
returned by the original call consists exactly of that fallback-extracted
number - it is not restricted to numbers from primary-endpoint pages
(which contributed nothing here). -/
theorem C4_counterexample :
    ("+911" : String) ∈ fetch_all_available_numbers
        ("a/channels/v2v/providers/p/connections/c1/phone-numbers".toList) 100
        [⟨404, .null⟩, ⟨200, .obj [("items", .arr [Json.str "+911"])]⟩]
      ∧ ∀ x ∈ fetch_all_available_numbers
          ("a/channels/v2v/providers/p/connections/c1/phone-numbers".toList) 100
          [⟨404, .null⟩, ⟨200, .obj [("items", .arr [Json.str "+911"])]⟩],
          x = "+911" := by
  exact ⟨by decide, by decide⟩

/-! ## C2: response normalization of mapping bodies -/

/-- C2, amended: for a mapping body the items are taken from `items`,
falling back to `data` and then `results` whenever the current items
value is falsy and that key is present; but `has_more` is computed from
the value under the `items` key (default `[]`) BEFORE the fallback:
`body["has_more"]` when present, else `(length of the items-key value ==
page_limit)`.  In particular, for `{"data": [exactly page_limit items]}`
with no `has_more` key, `has_more` is `false` and pagination stops after
that page. -/
theorem C2_normalizer_behavior :
    (∀ (xs : List Json) (L : Nat), 0 < L → xs.length = L →
        normalizePrimary (.obj [("data", .arr xs)]) L = (xs, false)
        ∧ ∀ (url : List Char) (rest : List Response) (acc : Finset String),
            fetchLoop url L (⟨200, .obj [("data", .arr xs)]⟩ :: rest) acc
              = (xs.foldl addPrimaryItem acc, 1, .finished))
    ∧ (∀ (xs : List Json) (L : Nat),
        normalizePrimary (.obj [("results", .arr xs)]) L = (xs, ((0 : Nat) == L)))
    ∧ (∀ (xs : List Json) (L : Nat),
        normalizePrimary (.obj [("items", .arr []), ("data", .arr xs)]) L
          = (xs, ((0 : Nat) == L)))
    ∧ (∀ (xs : List Json) (L : Nat),
        normalizePrimary (.obj [("items", .arr xs)]) L = (xs, (xs.length == L)))
    ∧ (∀ (xs : List Json) (L : Nat) (b : Bool),
        normalizePrimary (.obj [("items", .arr xs), ("has_more", .bool b)]) L
          = (xs, b)) := by
  have hdata : ∀ (xs : List Json) (L : Nat), 0 < L →
      normalizePrimary (.obj [("data", .arr xs)]) L = (xs, false) := by
    intro xs L hL
    have hbeq : ((0 : Nat) == L) = false := by
      simp only [beq_eq_false_iff_ne]
      omega
    simp [normalizePrimary, jget, hasMoreOf, truthy, asArr, itemsLen, hbeq]
  refine ⟨?_, ?_, ?_, ?_, ?_⟩
  · intro xs L hL hlen
    refine ⟨hdata xs L hL, ?_⟩
    intro url rest acc
    have h401 : (⟨200, .obj [("data", .arr xs)]⟩ : Response).status ≠ 401 := by
      show (200 : Nat) ≠ 401
      omega
    have h404 : (⟨200, .obj [("data", .arr xs)]⟩ : Response).status ≠ 404 := by
      show (200 : Nat) ≠ 404
      omega
    have herr : ¬(400 ≤ (⟨200, .obj [("data", .arr xs)]⟩ : Response).status
        ∧ (⟨200, .obj [("data", .arr xs)]⟩ : Response).status < 600) := by
      show ¬(400 ≤ (200 : Nat) ∧ (200 : Nat) < 600)
      omega
    have hres := @fetchLoop_page_stop ⟨200, .obj [("data", .arr xs)]⟩
      url L rest acc h401 h404 herr
      (by rw [hdata xs L hL]; exact Or.inr (Or.inr rfl))
    rw [hres]
    show ((normalizePrimary (.obj [("data", .arr xs)]) L).1.foldl addPrimaryItem acc,
      1, LoopExit.finished) = _
    rw [hdata xs L hL]
  · intro xs L
    simp [normalizePrimary, jget, hasMoreOf, truthy, asArr, itemsLen]
  · intro xs L
    simp [normalizePrimary, jget, hasMoreOf, truthy, asArr, itemsLen]
  · intro xs L
    simp [normalizePrimary, jget, hasMoreOf, truthy, asArr, itemsLen]
  · intro xs L b
    simp [normalizePrimary, jget, hasMoreOf, truthy, asArr, itemsLen]

/-- Witness for C2's hypotheses at a concrete full `data` page. -/
theorem C2_normalizer_behavior_witness :
    ((0 : Nat) < 2 ∧ ([Json.str "a", Json.str "b"] : List Json).length = 2)
      ∧ normalizePrimary (.obj [("data", .arr [Json.str "a", Json.str "b"])]) 2
          = ([Json.str "a", Json.str "b"], false)
      ∧ fetchLoop "u".toList 2
          [⟨200, .obj [("data", .arr [Json.str "a", Json.str "b"])]⟩] ∅
          = ([Json.str "a", Json.str "b"].foldl addPrimaryItem ∅, 1, .finished) :=
  have h := C2_normalizer_behavior.1 [Json.str "a", Json.str "b"] 2
    (by decide) (by decide)
  ⟨⟨by decide, by decide⟩, h.1, h.2 "u".toList [] ∅⟩

/-- C2, counterexample to the claim as stated: for the mapping body
`{"data": [100 items]}` with no `has_more` key and page limit 100, the
claim asserts `has_more = true` (length of the extracted items equals
the limit); the code computes `has_more` from the absent `items` key
first, yielding `false`. -/
theorem C2_counterexample :
    (normalizePrimary (.obj [("data", .arr (List.replicate 100 (Json.str "n")))]) 100).2
      = false := by
  decide

/-! ## C5: object items with no candidate field are dropped -/

/-- C5, amended: a dict item in which the candidate probe
`phone_number / number / phone / endpoint / id` finds no truthy value is
silently skipped (api_client.py line 197: `if phone_num:`); the
`str(item)` fallback of line 206 applies only to items that are neither
dicts nor strings (here shown for numbers). -/
theorem C5_extractor_fallback :
    (∀ (fs : List (String × Json)) (acc : Finset String),
        truthy (phoneFromFields fs) = false → addPrimaryItem acc (.obj fs) = acc)
    ∧ (∀ (s : String) (acc : Finset String),
        addPrimaryItem acc (.str s) = insert s acc)
    ∧ (∀ (n : Int) (acc : Finset String),
        addPrimaryItem acc (.num n) = insert (pyStr (.num n)) acc) := by
  refine ⟨?_, ?_, ?_⟩
  · intro fs acc h
    simp [addPrimaryItem, h]
  · intro s acc
    rfl
  · intro n acc
    rfl

/-- Witness for C5 at a concrete candidate-free dict item. -/
theorem C5_extractor_fallback_witness :
    truthy (phoneFromFields [("foo", Json.str "bar")]) = false
      ∧ addPrimaryItem ∅ (.obj [("foo", Json.str "bar")]) = ∅ :=
  ⟨by decide, C5_extractor_fallback.1 [("foo", Json.str "bar")] ∅ (by decide)⟩

/-- C5, counterexample to the claim as stated: processing the object
item `{"foo": "bar"}` (no candidate field present) leaves the
accumulated set empty - no string form of the item is added, so the item
IS silently dropped, contrary to the claim. -/
theorem C5_counterexample :
    addPrimaryItem ∅ (.obj [("foo", Json.str "bar")]) = ∅
      ∧ ∀ s : String, s ∉ addPrimaryItem ∅ (.obj [("foo", Json.str "bar")]) := by
  constructor
  · rfl
  · intro s
    show s ∉ (∅ : Finset String)
    simp

/-! ## C6: first truthy candidate field wins, in declared order -/

theorem firstNonEmptyField_cons (fs : List (String × Json)) (k : String)
    (ks : List String) :
    firstNonEmptyField fs (k :: ks)
      = if truthy (pyGet fs k) then some (pyGet fs k)
        else firstNonEmptyField fs ks := by
  show (match jget fs k with
      | some v => if truthy v then some v else firstNonEmptyField fs ks
      | none => firstNonEmptyField fs ks)
    = if truthy (pyGet fs k) then some (pyGet fs k)
      else firstNonEmptyField fs ks
  cases h : jget fs k with
  | none => simp [pyGet, h, truthy]
  | some v => simp [pyGet, h]

/-- C6: on every object item the or-chain of the source equals the
spec's "first candidate field present with a non-empty value, probed in
the order `[phone_number, number, phone, endpoint, id]`" (with
"non-empty" read as Python truthiness, the test the source applies); in
particular on `{"number": "+9111", "id": "x"}` it yields `"+9111"`,
ignoring the later candidate `id`.  Confirms the claim. -/
theorem C6_extractor_order :
    (∀ fs : List (String × Json),
        (if truthy (phoneFromFields fs) then some (phoneFromFields fs) else none)
          = firstNonEmptyField fs ["phone_number", "number", "phone", "endpoint", "id"])
    ∧ phoneFromFields [("number", Json.str "+9111"), ("id", Json.str "x")]
        = Json.str "+9111" := by
  constructor
  · intro fs
    rw [firstNonEmptyField_cons, firstNonEmptyField_cons, firstNonEmptyField_cons,
      firstNonEmptyField_cons, firstNonEmptyField_cons,
      show firstNonEmptyField fs [] = none from rfl]
    cases h1 : truthy (pyGet fs "phone_number") <;>
    cases h2 : truthy (pyGet fs "number") <;>
    cases h3 : truthy (pyGet fs "phone") <;>
    cases h4 : truthy (pyGet fs "endpoint") <;>
    cases h5 : truthy (pyGet fs "id") <;>
    simp [phoneFromFields, pyOr, h1, h2, h3, h4, h5]
  · rfl

/-! ## C9: normalized connections carry a usable id -/

theorem exists_not_of_dropWhile_ne_nil (p : Char → Bool) (l : List Char)
    (h : l.dropWhile p ≠ []) : ∃ c ∈ l.dropWhile p, p c = false := by
  induction l with
  | nil => simp at h
  | cons a t ih =>
    by_cases hp : p a
    · simp [List.dropWhile, hp] at h ⊢
      rcases ih (by simpa [List.dropWhile] using h) with ⟨c, hc1, hc2⟩
      exact ⟨c, by simpa using hc1, hc2⟩
    · refine ⟨a, ?_, by simpa using hp⟩
      simp [List.dropWhile, hp]

theorem stripList_ne_nil_exists (l : List Char) (h : stripList l ≠ []) :
    ∃ c ∈ stripList l, isSpace c = false := by
  have h2 : ((l.dropWhile isSpace).reverse).dropWhile isSpace ≠ [] := by
    intro hc
    apply h
    unfold stripList
    rw [hc]
    rfl
  rcases exists_not_of_dropWhile_ne_nil isSpace _ h2 with ⟨c, hc1, hc2⟩
  refine ⟨c, ?_, hc2⟩
  unfold stripList
  exact List.mem_reverse.mpr hc1

theorem stripList_subset (l : List Char) : ∀ c ∈ stripList l, c ∈ l := by
  intro c hc
  unfold stripList at hc
  rw [List.mem_reverse] at hc
  have hc2 : c ∈ (l.dropWhile isSpace).reverse :=
    (List.dropWhile_sublist isSpace).subset hc
  rw [List.mem_reverse] at hc2
  exact (List.dropWhile_sublist isSpace).subset hc2

theorem stripList_ne_nil_of_pyStrip {s : String} (h : pyStrip s ≠ "") :
    stripList s.data ≠ [] := by
  intro hc
  apply h
  unfold pyStrip
  rw [hc]

theorem jget_map_self (fs : List (String × Json)) (k : String) (v : Json)
    (hp : (jget fs k).isSome = true) :
    jget (fs.map (setPair k v)) k = some v := by
  induction fs with
  | nil => simp [jget] at hp
  | cons p fs' ih =>
    obtain ⟨k0, v0⟩ := p
    rw [List.map_cons]
    by_cases hk : k0 = k
    · have hhead : setPair k v (k0, v0) = (k, v) := by simp [setPair, hk]
      rw [hhead]
      simp [jget]
    · have hhead : setPair k v (k0, v0) = (k0, v0) := by simp [setPair, hk]
      rw [hhead]
      have hp' : (jget fs' k).isSome = true := by
        simpa [jget, hk] using hp
      simp [jget, hk, ih hp']

theorem jget_append_right (fs gs : List (String × Json)) (k : String)
    (hp : jget fs k = none) : jget (fs ++ gs) k = jget gs k := by
  induction fs with
  | nil => rfl
  | cons p fs' ih =>
    obtain ⟨k0, v0⟩ := p
    by_cases hk : k0 = k
    · simp [jget, hk] at hp
    · have hp' : jget fs' k = none := by simpa [jget, hk] using hp
      simp [jget, hk, ih hp']

theorem jget_jset_self (fs : List (String × Json)) (k : String) (v : Json) :
    jget (jset fs k v) k = some v := by
  unfold jset
  by_cases hp : (jget fs k).isSome = true
  · rw [if_pos hp]
    exact jget_map_self fs k v hp
  · rw [if_neg hp]
    have hnone : jget fs k = none := by
      cases hopt : jget fs k with
      | none => rfl
      | some w => exact absurd (by simp [hopt]) hp
    rw [jget_append_right fs _ k hnone]
    simp [jget]

theorem jget_map_other (fs : List (String × Json)) (k : String) (v : Json)
    (k' : String) (hkk : k' ≠ k) :
    jget (fs.map (setPair k v)) k' = jget fs k' := by
  induction fs with
  | nil => rfl
  | cons p fs' ih =>
    obtain ⟨k0, v0⟩ := p
    rw [List.map_cons]
    by_cases hk : k0 = k
    · have hhead : setPair k v (k0, v0) = (k, v) := by simp [setPair, hk]
      rw [hhead]
      have hne : ¬(k = k') := fun h => hkk h.symm
      have hne2 : ¬(k0 = k') := by rw [hk]; exact hne
      simp [jget, hne, hne2, ih]
    · have hhead : setPair k v (k0, v0) = (k0, v0) := by simp [setPair, hk]
      rw [hhead]
      by_cases hk' : k0 = k'
      · simp [jget, hk']
      · simp [jget, hk', ih]

theorem jget_append_single_other (fs : List (String × Json)) (k : String)
    (v : Json) (k' : String) (hkk : k' ≠ k) :
    jget (fs ++ [(k, v)]) k' = jget fs k' := by
  induction fs with
  | nil => simp [jget, Ne.symm hkk]
  | cons p fs' ih =>
    obtain ⟨k0, v0⟩ := p
    by_cases hk' : k0 = k'
    · simp [jget, hk']
    · simp [jget, hk', ih]

theorem jget_jset_other (fs : List (String × Json)) (k : String) (v : Json)
    (k' : String) (hkk : k' ≠ k) :
    jget (jset fs k v) k' = jget fs k' := by
  unfold jset
  by_cases hp : (jget fs k).isSome = true
  · rw [if_pos hp]
    exact jget_map_other fs k v k' hkk
  · rw [if_neg hp]
    exact jget_append_single_other fs k v k' hkk

theorem jget_connSetName_id (fs1 : List (String × Json)) (idval : Json) :
    jget (connSetName fs1 idval) "id" = jget fs1 "id" := by
  unfold connSetName
  split
  · exact jget_jset_other fs1 "name" idval "id" (by decide)
  · rfl

theorem jget_connSetProvider_id (fs2 : List (String × Json)) :
    jget (connSetProvider fs2) "id" = jget fs2 "id" := by
  unfold connSetProvider
  split
  · exact jget_jset_other fs2 "channel_provider" _ "id" (by decide)
  · rfl

theorem normalizeConn_valid {conn c : Json} (h : normalizeConn conn = some c) :
    ∃ fs s, c = .obj fs ∧ jget fs "id" = some (.str s) ∧ s ≠ ""
      ∧ ∃ ch ∈ s.data, isSpace ch = false := by
  cases conn with
  | str s =>
    simp only [normalizeConn] at h
    by_cases hg : s ≠ "" ∧ pyStrip s ≠ ""
    · rw [if_pos hg] at h
      injection h with h
      subst h
      refine ⟨_, s, rfl, by simp [jget], hg.1, ?_⟩
      rcases stripList_ne_nil_exists s.data (stripList_ne_nil_of_pyStrip hg.2)
        with ⟨ch, hch1, hch2⟩
      exact ⟨ch, stripList_subset s.data ch hch1, hch2⟩
    · rw [if_neg hg] at h
      cases h
  | obj fs =>
    simp only [normalizeConn] at h
    by_cases hg : truthy (connIdOf fs) = true ∧ pyStrip (pyStr (connIdOf fs)) ≠ ""
    · rw [if_pos hg] at h
      injection h with h
      subst h
      refine ⟨_, pyStrip (pyStr (connIdOf fs)), rfl, ?_, hg.2, ?_⟩
      · rw [jget_connSetProvider_id, jget_connSetName_id]
        exact jget_jset_self fs "id" (.str (pyStrip (pyStr (connIdOf fs))))
      · rcases stripList_ne_nil_exists (pyStr (connIdOf fs)).data
          (stripList_ne_nil_of_pyStrip hg.2) with ⟨ch, hch1, hch2⟩
        exact ⟨ch, hch1, hch2⟩
    · rw [if_neg hg] at h
      cases h
  | null => simp [normalizeConn] at h
  | bool b => simp [normalizeConn] at h
  | num n => simp [normalizeConn] at h
  | arr xs => simp [normalizeConn] at h

theorem connFromRaw_valid {conn c : Json} (h : connFromRaw conn = some c) :
    ∃ fs s, c = .obj fs ∧ jget fs "id" = some (.str s) ∧ s ≠ ""
      ∧ ∃ ch ∈ s.data, isSpace ch = false := by
  cases conn with
  | str s =>
    simp only [connFromRaw] at h
    by_cases hg : s ≠ "" ∧ pyStrip s ≠ ""
    · rw [if_pos hg] at h
      injection h with h
      subst h
      refine ⟨_, s, rfl, by simp [jget], hg.1, ?_⟩
      rcases stripList_ne_nil_exists s.data (stripList_ne_nil_of_pyStrip hg.2)
        with ⟨ch, hch1, hch2⟩
      exact ⟨ch, stripList_subset s.data ch hch1, hch2⟩
    · rw [if_neg hg] at h
      cases h
  | obj fs =>
    simp only [connFromRaw] at h
    by_cases hg : truthy (rawConnIdOf fs) = true
        ∧ pyStrip (pyStr (rawConnIdOf fs)) ≠ ""
    · rw [if_pos hg] at h
      injection h with h
      subst h
      refine ⟨_, pyStrip (pyStr (rawConnIdOf fs)), rfl, ?_, hg.2, ?_⟩
      · rw [jget_connSetName_id]
        exact jget_jset_self fs "id" (.str (pyStrip (pyStr (rawConnIdOf fs))))
      · rcases stripList_ne_nil_exists (pyStr (rawConnIdOf fs)).data
          (stripList_ne_nil_of_pyStrip hg.2) with ⟨ch, hch1, hch2⟩
        exact ⟨ch, hch1, hch2⟩
    · rw [if_neg hg] at h
      cases h
  | null => simp [connFromRaw] at h
  | bool b => simp [connFromRaw] at h
  | num n => simp [connFromRaw] at h
  | arr xs => simp [connFromRaw] at h

/-- C9: every connection surfaced by either connection normalization
(`_normalize_connections` and the inline normalization of
`get_connections_from_workspace`) is an object whose `id` is a non-empty
string that is not whitespace-only; and the input
`["", "  ", {"connection_id": "abc"}, "xyz"]` normalizes to exactly two
connections, the first with id `"abc"` and name `"abc"` (plus its
original field and the defaulted `channel_provider`), the second with id
`"xyz"` and name `"xyz"`.  Confirms the claim. -/
theorem C9_connection_id_invariant :
    (∀ (conns : List Json) (c : Json), c ∈ normalizeConnections conns →
        ∃ fs s, c = .obj fs ∧ jget fs "id" = some (.str s) ∧ s ≠ ""
          ∧ ∃ ch ∈ s.data, isSpace ch = false)
    ∧ (∀ (conns : List Json) (c : Json), c ∈ connectionsFromRaw conns →
        ∃ fs s, c = .obj fs ∧ jget fs "id" = some (.str s) ∧ s ≠ ""
          ∧ ∃ ch ∈ s.data, isSpace ch = false)
    ∧ normalizeConnections
        [.str "", .str "  ", .obj [("connection_id", .str "abc")], .str "xyz"]
      = [.obj [("connection_id", .str "abc"), ("id", .str "abc"),
          ("name", .str "abc"), ("channel_provider", .str "exotel")],
         .obj [("id", .str "xyz"), ("name", .str "xyz")]] := by
  refine ⟨?_, ?_, rfl⟩
  · intro conns c hc
    rcases List.mem_filterMap.mp hc with ⟨a, _, ha2⟩
    exact normalizeConn_valid ha2
  · intro conns c hc
    rcases List.mem_filterMap.mp hc with ⟨a, _, ha2⟩
    exact connFromRaw_valid ha2

/-- Witness for C9 at the concrete connection list of the claim. -/
theorem C9_connection_id_invariant_witness :
    (Json.obj [("id", .str "xyz"), ("name", .str "xyz")])
        ∈ normalizeConnections
          [.str "", .str "  ", .obj [("connection_id", .str "abc")], .str "xyz"]
      ∧ ∃ fs s, (Json.obj [("id", .str "xyz"), ("name", .str "xyz")]) = .obj fs
          ∧ jget fs "id" = some (.str s) ∧ s ≠ ""
          ∧ ∃ ch ∈ s.data, isSpace ch = false := by
  have hlist : normalizeConnections
      [.str "", .str "  ", .obj [("connection_id", .str "abc")], .str "xyz"]
      = [.obj [("connection_id", .str "abc"), ("id", .str "abc"),
          ("name", .str "abc"), ("channel_provider", .str "exotel")],
         .obj [("id", .str "xyz"), ("name", .str "xyz")]] := rfl
  have hmem : (Json.obj [("id", .str "xyz"), ("name", .str "xyz")])
      ∈ normalizeConnections
        [.str "", .str "  ", .obj [("connection_id", .str "abc")], .str "xyz"] := by
    rw [hlist]
    exact List.mem_cons_of_mem _ (List.mem_cons_self _ _)
  exact ⟨hmem, C9_connection_id_invariant.1 _ _ hmem⟩

/-! ## C10: CSV round trip -/

theorem load_fold (l : List String) (acc : Finset String)
    (h : ∀ n ∈ l, n ≠ "") :
    (l.map (fun n => [n])).foldl
      (fun acc row =>
        match rowValue ["phone_number"] row "phone_number" with
        | some v => if v ≠ "" then insert v acc else acc
        | none => acc) acc
      = acc ∪ l.toFinset := by
  induction l generalizing acc with
  | nil => simp
  | cons n l' ih =>
    have hn : n ≠ "" := h n (List.mem_cons_self n l')
    have hrow : rowValue ["phone_number"] [n] "phone_number" = some n := rfl
    rw [List.map_cons, List.foldl_cons]
    simp only [hrow]
    rw [if_pos hn]
    rw [ih (insert n acc) (fun m hm => h m (List.mem_cons_of_mem n hm))]
    ext x
    simp

/-- C10: writing a finite set of non-empty phone-number strings with
`save_to_csv` (a `phone_number` header row, then one value per row in
sorted order) and reading the file back with `load_from_csv` (which
collects the non-empty values of the `phone_number` column into a set)
returns exactly the original set.  The `csv` module's
quoting/unquoting of one record is modelled as the identity, so the file
is a list of records.  Confirms the claim. -/
theorem C10_csv_round_trip (S : Finset String) (h : ∀ s ∈ S, s ≠ "") :
    load_from_csv (save_to_csv S) = S := by
  show ((S.sort (· ≤ ·)).map (fun n => [n])).foldl
      (fun acc row =>
        match rowValue ["phone_number"] row "phone_number" with
        | some v => if v ≠ "" then insert v acc else acc
        | none => acc) ∅
    = S
  have hsorted : ∀ n ∈ S.sort (· ≤ ·), n ≠ "" :=
    fun n hn => h n ((Finset.mem_sort (· ≤ ·)).mp hn)
  rw [load_fold (S.sort (· ≤ ·)) ∅ hsorted, Finset.empty_union,
    Finset.sort_toFinset]

/-- Witness for C10 at a concrete set. -/
theorem C10_csv_round_trip_witness :
    (∀ s ∈ ({"+911"} : Finset String), s ≠ "")
      ∧ load_from_csv (save_to_csv {"+911"}) = {"+911"} :=
  ⟨by decide, C10_csv_round_trip {"+911"} (by decide)⟩

end PhoneMgr
